import Mathlib

/-!
Verification development for the absh A/B-testing tool.

The definitions below are a shallow embedding of the three source files
`src/main.rs`, `src/measure/key.rs` and `src/measure/tr.rs`.  External
effects (spawning shell processes, reading the clock, reading rusage)
are supplied as explicit per-round inputs (`RoundInput`); the mutable
`ExperimentMap` becomes explicit state passing over `List Experiment`.
Rust `u64` values are modelled as `Nat` (every operation performed on
them here is addition-free appending, comparison, or division, so no
wrap-around can occur).  A Rust panic (the `assert!` on the metric
command's exit status) and an `anyhow` error both abort `main`; both are
modelled as `RunErr` values that stop the loop.

Parts of the absh library that the three files use but whose sources are
not present (`duration.rs`, `mem_usage.rs`, `experiment.rs`,
`math/stats.rs`, `render_stats.rs`, `distr_plot.rs`) are modelled from
the specification; each such definition carries a doc comment starting
with `Modelled from the spec:`.
-/

/-- The metric kinds, from `src/measure/key.rs`. -/
inductive MeasureKey where
  | WallTime
  | MaxRss
  | UserDefinedMetric
deriving DecidableEq, Repr

namespace MeasureKey

/-- `MeasureKey::ALL` from `src/measure/key.rs`. -/
def ALL : List MeasureKey := [MeasureKey.WallTime, MeasureKey.MaxRss, MeasureKey.UserDefinedMetric]

/-- `MeasureKey::index` from `src/measure/key.rs`. -/
def index : MeasureKey → Nat
  | .WallTime => 0
  | .MaxRss => 1
  | .UserDefinedMetric => 2

/-- `MeasureKey::from_index` from `src/measure/key.rs`; the `panic!` branch is
modelled as `none`. -/
def from_index : Nat → Option MeasureKey
  | 0 => some MeasureKey.WallTime
  | 1 => some MeasureKey.MaxRss
  | 2 => some MeasureKey.UserDefinedMetric
  | _ => none

end MeasureKey

/-- Modelled from the spec: `MeasureMap` (from the absent `measure/map.rs`)
holds one sample store — an ordered sequence of raw u64 samples — per
metric kind ("each Experiment holds one Sample Store per kind"). -/
structure MeasureMap where
  wallTime : List Nat
  maxRss : List Nat
  userDefined : List Nat
deriving DecidableEq, Repr

namespace MeasureMap

/-- `MeasureMap::new_all_default()`: all three stores empty. -/
def new_all_default : MeasureMap := ⟨[], [], []⟩

/-- Indexing `measures[key]` (read). -/
def get (m : MeasureMap) : MeasureKey → List Nat
  | .WallTime => m.wallTime
  | .MaxRss => m.maxRss
  | .UserDefinedMetric => m.userDefined

/-- `measures[key].push(v)`: append one sample to the store of one kind. -/
def push (m : MeasureMap) (k : MeasureKey) (v : Nat) : MeasureMap :=
  match k with
  | .WallTime => { m with wallTime := m.wallTime ++ [v] }
  | .MaxRss => { m with maxRss := m.maxRss ++ [v] }
  | .UserDefinedMetric => { m with userDefined := m.userDefined ++ [v] }

end MeasureMap

/-- Experiment names A..E, from the absent `experiment_name.rs`; only the
closed set matters here. -/
inductive ExperimentName where
  | A | B | C | D | E
deriving DecidableEq, Repr

/-- `Experiment` from the absent `experiment.rs`, as constructed in
`main.rs`: a name, a warmup script, a run script, and the sample stores. -/
structure Experiment where
  name : ExperimentName
  warmup : String
  run : String
  measures : MeasureMap
deriving DecidableEq, Repr

/-- Modelled from the spec: `Experiment::runs()` (absent `experiment.rs`)
is the sample-store length; the always-active wall-time store is the
authoritative one. -/
def Experiment.runs (e : Experiment) : Nat := (e.measures.get MeasureKey.WallTime).length

/-- The external world's contribution to one `run_test` call: exit
statuses of the spawned processes, the measured duration and peak RSS,
and the metric command's exit status and standard output. -/
structure RoundInput where
  warmupSuccess : Bool
  runSuccess : Bool
  durationNanos : Nat
  maxrss : Nat
  metricExitSuccess : Bool
  metricStdout : String
deriving DecidableEq, Repr

/-- The ways `run_test` aborts `main`: the `anyhow` error for a zero
maxrss, the `assert!` panic on a failed metric command, and the `anyhow`
context errors for unparsable metric output. -/
inductive RunErr where
  | maxrssUnavailable
  | metricCommandFailed
  | metricParse
deriving DecidableEq, Repr

/-- Rust `str::trim`: strip leading and trailing whitespace (modelled
over the ASCII whitespace characters). -/
def rust_trim (s : String) : String :=
  let ws := fun c => c = ' ' || c = '\t' || c = '\n' || c = '\r'
  ⟨(((s.toList.dropWhile ws).reverse.dropWhile ws).reverse : List Char)⟩

/-- Rust `str::parse::<u64>`: optional leading plus sign, then one or
more ASCII digits, value below 2^64; anything else is an error. -/
def parse_u64 (s : String) : Option Nat :=
  let cs := s.toList
  let cs := match cs with
    | '+' :: rest => rest
    | other => other
  if cs = [] then none
  else if cs.all (fun c => c.isDigit) then
    let v := cs.foldl (fun a c => a * 10 + (c.toNat - 48)) 0
    if v < 18446744073709551616 then some v else none
  else none

/-- `run_test` from `src/main.rs` (lines 63-142).  `metricGiven` is
whether `--metric` was supplied.  Returns the error (if any) together
with the experiment as mutated so far, mirroring in-place mutation of
the stores: a warmup or script failure appends nothing and succeeds; a
zero maxrss errors before any append; otherwise wall-time and max-RSS
are appended, and then the metric command (when given) either appends
its parsed value or aborts (assert panic or parse error). -/
def run_test (metricGiven : Bool) (test : Experiment) (i : RoundInput) :
    Option RunErr × Experiment :=
  if i.warmupSuccess = false then (none, test)
  else if i.runSuccess = false then (none, test)
  else if i.maxrss = 0 then (some RunErr.maxrssUnavailable, test)
  else
    let test1 : Experiment :=
      { test with measures := (test.measures.push MeasureKey.WallTime i.durationNanos).push MeasureKey.MaxRss i.maxrss }
    if metricGiven then
      if i.metricExitSuccess = false then (some RunErr.metricCommandFailed, test1)
      else
        match parse_u64 (rust_trim i.metricStdout) with
        | none => (some RunErr.metricParse, test1)
        | some v =>
          (none, { test1 with measures := test1.measures.push MeasureKey.UserDefinedMetric v })
    else (none, test1)

/-- `run_pair` from `src/main.rs` (lines 144-158): run every experiment
once, stopping at the first error (`run_test(..)?`).  Experiments
processed before the error keep their new samples.  The randomised
order is modelled by the caller choosing the association of inputs to
experiments; the traversal itself is in collection order. -/
def run_pair (metricGiven : Bool) : List Experiment → List RoundInput →
    Option RunErr × List Experiment
  | [], _ => (none, [])
  | e :: es, [] => (none, e :: es)
  | e :: es, i :: is =>
    match run_test metricGiven e i with
    | (some err, e1) => (some err, e1 :: es)
    | (none, e1) =>
      let r := run_pair metricGiven es is
      (r.1, e1 :: r.2)

/-- `min_count` in `main` (line 268): the minimum of `runs()` over all
experiments.  The code unwraps a nonempty iterator; the empty case is
totalised to 0 and never reached (experiment A always exists). -/
def minCount : List Experiment → Nat
  | [] => 0
  | [e] => e.runs
  | e :: es => Nat.min e.runs (minCount es)

/-- The command-line options of `main.rs` that the run loop reads. -/
structure Opts where
  random_order : Bool
  ignore_first : Bool
  iterations : Option Nat
  mem : Bool
  metricGiven : Bool
deriving DecidableEq, Repr

/-- The statistics failure from the absent `math/stats.rs`: stats of a
store with fewer than two samples. -/
inductive StatErr where
  | insufficientData
deriving DecidableEq, Repr

/-- `Duration` from the absent `duration.rs`: a nanosecond count. -/
structure Duration where
  nanos : Nat
deriving DecidableEq, Repr

/-- `Duration::from_nanos`. -/
def Duration.from_nanos (n : Nat) : Duration := ⟨n⟩

/-- Left-pad a number below 1000 to three digits. -/
def pad3 (n : Nat) : String :=
  if n < 10 then "00" ++ toString n
  else if n < 100 then "0" ++ toString n
  else toString n

/-- Modelled from the spec: the display of a `Duration` (absent
`duration.rs`) converts nanoseconds to a fixed-point seconds value with
three decimals. -/
def Duration.display_str (d : Duration) : String :=
  toString (d.nanos / 1000000000) ++ "." ++ pad3 (d.nanos / 1000000 % 1000)

/-- `MemUsage` from the absent `mem_usage.rs`: a byte count. -/
structure MemUsage where
  bytes : Nat
deriving DecidableEq, Repr

/-- `MemUsage::from_bytes`. -/
def MemUsage.from_bytes (b : Nat) : MemUsage := ⟨b⟩

/-- Modelled from the spec: `MemUsage::mib` (absent `mem_usage.rs`)
converts bytes to mebibytes by integer division. -/
def MemUsage.mib (m : MemUsage) : Nat := m.bytes / 1048576

/-- `WallTime::number_to_display` from `src/measure/tr.rs` (line 30). -/
def WallTime.number_to_display (n : Nat) : Duration := Duration.from_nanos n

/-- `MaxRss::number_to_display` from `src/measure/tr.rs` (line 53). -/
def MaxRss.number_to_display (n : Nat) : Nat := (MemUsage.from_bytes n).mib

/-- `UserDefinedMetric::number_to_display` from `src/measure/tr.rs` (line 76). -/
def UserDefinedMetric.number_to_display (n : Nat) : Nat := n

/-- `Measure::name` per implementation in `src/measure/tr.rs`. -/
def Measure.name : MeasureKey → String
  | .WallTime => "Time (in seconds)"
  | .MaxRss => "Max RSS (in megabytes)"
  | .UserDefinedMetric => "User defined metric"

/-- `Measure::id` per implementation in `src/measure/tr.rs`. -/
def Measure.id : MeasureKey → String
  | .WallTime => "wall-time"
  | .MaxRss => "max-rss"
  | .UserDefinedMetric => "user-defined-metric"

/-- Minimum of a list of naturals (0 for the empty list). -/
def listMin : List Nat → Nat
  | [] => 0
  | x :: xs => xs.foldl Nat.min x

/-- Maximum of a list of naturals. -/
def listMax (l : List Nat) : Nat := l.foldl Nat.max 0

/-- Modelled from the spec: one experiment's row of the statistics table
(absent `math/stats.rs` and `render_stats.rs`).  The sufficient
statistics count, sum and sum of squares — from which mean, standard
deviation and the confidence interval derive — together with the
extrema, rendered as text. -/
def rowString (store : List Nat) : String :=
  "n=" ++ toString store.length ++ " sum=" ++ toString store.sum ++
    " sumsq=" ++ toString (store.map (fun x => x * x)).sum ++
    " min=" ++ toString (listMin store) ++ " max=" ++ toString (listMax store)

/-- Modelled from the spec: the per-experiment statistics rows for one
metric, failing with `InsufficientData` when any experiment has fewer
than two samples for it. -/
def statsLines (k : MeasureKey) (tests : List Experiment) : Except StatErr (List String) :=
  if ∀ t ∈ tests, 2 ≤ (t.measures.get k).length then
    .ok (tests.map fun t => rowString (t.measures.get k))
  else .error StatErr.insufficientData

/-- Modelled from the spec: the distribution-plot rows for one metric
(absent `distr_plot.rs`), one row per experiment; the plot content is
abstracted, only its presence and its data-dependence matter to the
claims. -/
def plotLines (k : MeasureKey) (tests : List Experiment) : List String :=
  tests.map fun t => "distr " ++ toString (t.measures.get k)

/-- Modelled from the spec: the line-structure of one metric's rendered
report (absent `render_stats.rs`): the metric's name, the statistics
rows, and — in full mode only — the distribution plot rows. -/
def blockLines (k : MeasureKey) (tests : List Experiment) (include_distr : Bool) :
    List String :=
  Measure.name k :: tests.map (fun t => rowString (t.measures.get k)) ++
    (if include_distr then plotLines k tests else [])

/-- Join a list of lines, terminating each with a newline. -/
def unlines : List String → String
  | [] => ""
  | l :: ls => l ++ "\n" ++ unlines ls

/-- Modelled from the spec: `render_stats` for one metric (absent
`render_stats.rs`), as delegated to by `MeasureDyn::render_stats` in
`src/measure/tr.rs` (line 137): the statistics table and optionally the
distribution plots, both computed from the same stores, as one newline
terminated text block. -/
def renderOne (k : MeasureKey) (tests : List Experiment) (include_distr : Bool) :
    Except StatErr String :=
  match statsLines k tests with
  | .error e => .error e
  | .ok rows =>
    .ok (unlines (Measure.name k :: rows ++ (if include_distr then plotLines k tests else [])))

/-- The loop body of `AllMeasures::render_stats` in `src/measure/tr.rs`
(lines 160-165): `i` is the enumeration index, `s` the accumulator; a
single newline is pushed before every block except the first. -/
def allRenderGo (tests : List Experiment) (include_distr : Bool) :
    List MeasureKey → Nat → String → Except StatErr String
  | [], _, s => .ok s
  | m :: ms, i, s =>
    let s := if i ≠ 0 then s ++ "\n" else s
    match renderOne m tests include_distr with
    | .error e => .error e
    | .ok b => allRenderGo tests include_distr ms (i + 1) (s ++ b)

/-- `AllMeasures::render_stats` from `src/measure/tr.rs` (lines 154-167). -/
def AllMeasures.render_stats (ms : List MeasureKey) (tests : List Experiment)
    (include_distr : Bool) : Except StatErr String :=
  allRenderGo tests include_distr ms 0 ""

/-- The active-measure registry built in `main` (lines 255-263):
wall-time always, max-RSS when `-m` was given, the user-defined metric
when `--metric` was given, in that push order. -/
def buildMeasures (mem metricGiven : Bool) : List MeasureKey :=
  let ms := [MeasureKey.WallTime]
  let ms := if mem then ms ++ [MeasureKey.MaxRss] else ms
  if metricGiven then ms ++ [MeasureKey.UserDefinedMetric] else ms

/-- What one iteration of the `loop` in `main` (lines 265-288) did:
aborted with an error from `run_pair`, hit the `break`, hit the
`continue` gate, aborted with a rendering error, or rendered the full
and short reports. -/
inductive StepResult where
  | errored (e : RunErr)
  | broke
  | continued
  | renderErrored (e : StatErr)
  | rendered (full short : String)
deriving DecidableEq, Repr

/-- One iteration of the `loop` in `main` (lines 265-288): run the round,
take the minimum run count, break when it equals the requested
iteration count, skip rendering below two, otherwise render the full
report then the short report (each `?`-propagating). -/
def mainStep (o : Opts) (exps : List Experiment) (round : List RoundInput) :
    List Experiment × StepResult :=
  let pr := run_pair o.metricGiven exps round
  match pr.1 with
  | some e => (pr.2, .errored e)
  | none =>
    let mc := minCount pr.2
    if o.iterations = some mc then (pr.2, .broke)
    else if mc < 2 then (pr.2, .continued)
    else
      match AllMeasures.render_stats (buildMeasures o.mem o.metricGiven) pr.2 true with
      | .error e => (pr.2, .renderErrored e)
      | .ok gf =>
        match AllMeasures.render_stats (buildMeasures o.mem o.metricGiven) pr.2 false with
        | .error e => (pr.2, .renderErrored e)
        | .ok gs => (pr.2, .rendered gf gs)

/-- Whether a step result ends the `loop` (an error propagating out of
`main`, or the `break`). -/
def stopsLoop : StepResult → Bool
  | .errored _ => true
  | .broke => true
  | .renderErrored _ => true
  | _ => false

/-- Whether a step invoked `AllMeasures::render_stats`. -/
def invokesRender : StepResult → Bool
  | .rendered _ _ => true
  | .renderErrored _ => true
  | _ => false

/-- The trace of the `loop` in `main` over a script of per-round inputs:
each entry is the experiment state after the round together with what
the iteration did; the trace ends at the script's end, at the `break`,
or at a propagated error. -/
def mainTrace (o : Opts) : List Experiment → List (List RoundInput) →
    List (List Experiment × StepResult)
  | _, [] => []
  | exps, r :: rs =>
    let st := mainStep o exps r
    st :: (if stopsLoop st.2 then [] else mainTrace o st.1 rs)

/-- The ignore-first clear in `main` (lines 217-221): every store of
every experiment is cleared. -/
def clearAllExps (es : List Experiment) : List Experiment :=
  es.map fun e => { e with measures := MeasureMap.new_all_default }

/-- The experiment states visited by `main` after the experiments are
built (lines 214-288): with `-i`, one round is run, then all stores are
cleared, then the loop runs on the rest of the script (an error in the
first round aborts before the clear); without `-i`, the loop runs on
the whole script. -/
def stateTrace (o : Opts) (exps : List Experiment) (script : List (List RoundInput)) :
    List (List Experiment) :=
  if o.ignore_first then
    match script with
    | [] => [exps]
    | r :: rest =>
      let pr := run_pair o.metricGiven exps r
      match pr.1 with
      | some _ => [exps, pr.2]
      | none =>
        let cleared := clearAllExps pr.2
        exps :: pr.2 :: cleared :: (mainTrace o cleared rest).map (fun st => st.1)
  else exps :: (mainTrace o exps script).map (fun st => st.1)

/-- Pointwise store-length monotonicity between two experiment lists:
same shape, and no store shrinks. -/
def storesMono (xs ys : List Experiment) : Prop :=
  ys.length = xs.length ∧
    ∀ p ∈ xs.zip ys, ∀ k, ((p.1 : Experiment).measures.get k).length ≤ (p.2.measures.get k).length

/-- Blocks separated by one blank line: interleave an empty line between
consecutive blocks. -/
def sepBlank : List (List String) → List String
  | [] => []
  | [l] => l
  | l :: ls => l ++ [""] ++ sepBlank ls

/-- All user-defined-metric stores empty. -/
def allUdmEmpty (es : List Experiment) : Prop :=
  ∀ e ∈ es, e.measures.get MeasureKey.UserDefinedMetric = []

/-- The tail of the aggregated report: a newline separator followed by a
block, for each remaining measure. -/
def blocksTail (tests : List Experiment) (include_distr : Bool) :
    List MeasureKey → String
  | [] => ""
  | m :: ms => "\n" ++ unlines (blockLines m tests include_distr) ++ blocksTail tests include_distr ms

/-! Helper lemmas about the stores and `run_test`/`run_pair`. -/

theorem MeasureMap.get_push_same (m : MeasureMap) (k : MeasureKey) (v : Nat) :
    (m.push k v).get k = m.get k ++ [v] := by
  cases k <;> rfl

theorem MeasureMap.len_le_push (m : MeasureMap) (k k' : MeasureKey) (v : Nat) :
    (m.get k').length ≤ ((m.push k v).get k').length := by
  cases k <;> cases k' <;> simp [MeasureMap.get, MeasureMap.push]

theorem run_test_skip (mg : Bool) (t : Experiment) (i : RoundInput)
    (h : i.warmupSuccess = false ∨ i.runSuccess = false) :
    run_test mg t i = (none, t) := by
  unfold run_test
  rcases h with h | h
  · simp [h]
  · by_cases hw : i.warmupSuccess = false <;> simp [hw, h]

theorem run_test_rss_zero (mg : Bool) (t : Experiment) (i : RoundInput)
    (hw : i.warmupSuccess = true) (hr : i.runSuccess = true) (h : i.maxrss = 0) :
    run_test mg t i = (some RunErr.maxrssUnavailable, t) := by
  unfold run_test
  simp [hw, hr, h]

theorem run_test_mono (mg : Bool) (t : Experiment) (i : RoundInput) (k : MeasureKey) :
    (t.measures.get k).length ≤ ((run_test mg t i).2.measures.get k).length := by
  unfold run_test
  split
  · exact Nat.le_refl _
  split
  · exact Nat.le_refl _
  split
  · exact Nat.le_refl _
  have base : (t.measures.get k).length ≤
      (((t.measures.push MeasureKey.WallTime i.durationNanos).push MeasureKey.MaxRss i.maxrss).get k).length :=
    Nat.le_trans (MeasureMap.len_le_push _ _ _ _) (MeasureMap.len_le_push _ _ _ _)
  split
  · split
    · exact base
    · split
      · exact base
      · exact Nat.le_trans base (MeasureMap.len_le_push _ _ _ _)
  · exact base

theorem run_test_udm_const (t : Experiment) (i : RoundInput) :
    ((run_test false t i).2).measures.get MeasureKey.UserDefinedMetric =
      t.measures.get MeasureKey.UserDefinedMetric := by
  unfold run_test
  split
  · rfl
  split
  · rfl
  split
  · rfl
  simp [MeasureMap.get, MeasureMap.push]

theorem run_test_rss_append (mg : Bool) (t : Experiment) (i : RoundInput)
    (hw : i.warmupSuccess = true) (hr : i.runSuccess = true) (hm : i.maxrss ≠ 0) :
    ((run_test mg t i).2).measures.get MeasureKey.MaxRss =
      t.measures.get MeasureKey.MaxRss ++ [i.maxrss] := by
  unfold run_test
  simp only [hw, hr, hm, Bool.true_eq_false, if_false, if_neg hm]
  split
  · split
    · simp [MeasureMap.get, MeasureMap.push]
    · split <;> simp [MeasureMap.get, MeasureMap.push]
  · simp [MeasureMap.get, MeasureMap.push]

theorem run_pair_cons_err (mg : Bool) (e : Experiment) (es : List Experiment)
    (i : RoundInput) (is : List RoundInput) (err : RunErr) (e1 : Experiment)
    (h : run_test mg e i = (some err, e1)) :
    run_pair mg (e :: es) (i :: is) = (some err, e1 :: es) := by
  simp [run_pair, h]

theorem run_pair_cons_ok (mg : Bool) (e : Experiment) (es : List Experiment)
    (i : RoundInput) (is : List RoundInput) (e1 : Experiment)
    (h : run_test mg e i = (none, e1)) :
    run_pair mg (e :: es) (i :: is) =
      ((run_pair mg es is).1, e1 :: (run_pair mg es is).2) := by
  simp [run_pair, h]

theorem storesMono_nil : storesMono [] [] := by
  refine ⟨rfl, ?_⟩
  intro p hp
  simp at hp

theorem storesMono_cons (x y : Experiment) (xs ys : List Experiment)
    (h1 : ∀ k, (x.measures.get k).length ≤ (y.measures.get k).length)
    (h2 : storesMono xs ys) : storesMono (x :: xs) (y :: ys) := by
  obtain ⟨hl, hp⟩ := h2
  refine ⟨by simp [hl], ?_⟩
  intro p hp' k
  rw [List.zip_cons_cons, List.mem_cons] at hp'
  rcases hp' with h | h
  · subst h
    exact h1 k
  · exact hp p h k

theorem storesMono_refl : ∀ xs : List Experiment, storesMono xs xs
  | [] => storesMono_nil
  | x :: xs => storesMono_cons x x xs xs (fun _ => Nat.le_refl _) (storesMono_refl xs)

theorem run_pair_mono (mg : Bool) : ∀ (es : List Experiment) (is : List RoundInput),
    storesMono es (run_pair mg es is).2
  | [], _ => by
    simp only [run_pair]
    exact storesMono_nil
  | e :: es, [] => by
    simp only [run_pair]
    exact storesMono_refl _
  | e :: es, i :: is => by
    rcases h : run_test mg e i with ⟨err?, e1⟩
    have hm : ∀ k, (e.measures.get k).length ≤ (e1.measures.get k).length := by
      intro k
      have := run_test_mono mg e i k
      rw [h] at this
      exact this
    cases err? with
    | some err =>
      rw [run_pair_cons_err mg e es i is err e1 h]
      exact storesMono_cons e e1 es es hm (storesMono_refl es)
    | none =>
      rw [run_pair_cons_ok mg e es i is e1 h]
      exact storesMono_cons e e1 es _ hm (run_pair_mono mg es is)

theorem minCount_le : ∀ (es : List Experiment), ∀ e ∈ es, minCount es ≤ e.runs
  | [], e, he => absurd he (List.not_mem_nil e)
  | [e0], e, he => by
    rcases List.mem_singleton.mp he with rfl
    exact Nat.le_refl _
  | e0 :: e1 :: rest, e, he => by
    rcases List.mem_cons.mp he with rfl | he'
    · exact Nat.min_le_left _ _
    · exact Nat.le_trans (Nat.min_le_right _ _) (minCount_le (e1 :: rest) e he')

theorem run_pair_udm : ∀ (es : List Experiment) (is : List RoundInput),
    allUdmEmpty es → allUdmEmpty (run_pair false es is).2
  | [], is, h => by
    simp only [run_pair]
    exact h
  | e :: es, [], h => by
    simp only [run_pair]
    exact h
  | e :: es, i :: is, h => by
    rcases hrt : run_test false e i with ⟨err?, e1⟩
    have he1 : e1.measures.get MeasureKey.UserDefinedMetric = [] := by
      have := run_test_udm_const e i
      rw [hrt] at this
      rw [this]
      exact h e (List.mem_cons_self e es)
    have hes : allUdmEmpty es := fun x hx => h x (List.mem_cons_of_mem e hx)
    cases err? with
    | some err =>
      rw [run_pair_cons_err false e es i is err e1 hrt]
      intro x hx
      rcases List.mem_cons.mp hx with rfl | hx'
      · exact he1
      · exact hes x hx'
    | none =>
      rw [run_pair_cons_ok false e es i is e1 hrt]
      intro x hx
      rcases List.mem_cons.mp hx with rfl | hx'
      · exact he1
      · exact run_pair_udm es is hes x hx'

theorem mainStep_fst (o : Opts) (exps : List Experiment) (r : List RoundInput) :
    (mainStep o exps r).1 = (run_pair o.metricGiven exps r).2 := by
  unfold mainStep
  rcases run_pair o.metricGiven exps r with ⟨err?, exps'⟩
  cases err? with
  | some e => rfl
  | none =>
    simp only
    split
    · rfl
    split
    · rfl
    split
    · rfl
    split
    · rfl
    rfl

theorem mainStep_render_min (o : Opts) (exps : List Experiment) (r : List RoundInput)
    (h : invokesRender (mainStep o exps r).2 = true) :
    2 ≤ minCount (mainStep o exps r).1 := by
  revert h
  unfold mainStep
  rcases run_pair o.metricGiven exps r with ⟨err?, exps'⟩
  cases err? with
  | some e => intro h; simp [invokesRender] at h
  | none =>
    simp only
    split
    · intro h; simp [invokesRender] at h
    split
    · intro h; simp [invokesRender] at h
    · rename_i hlt
      intro _
      split
      · exact Nat.le_of_not_lt hlt
      · split
        · exact Nat.le_of_not_lt hlt
        · exact Nat.le_of_not_lt hlt

theorem mainStep_broke_iter (o : Opts) (exps : List Experiment) (r : List RoundInput)
    (h : (mainStep o exps r).2 = StepResult.broke) :
    o.iterations = some (minCount (mainStep o exps r).1) := by
  revert h
  unfold mainStep
  rcases run_pair o.metricGiven exps r with ⟨err?, exps'⟩
  cases err? with
  | some e => intro h; simp at h
  | none =>
    simp only
    split
    · intro _
      assumption
    split
    · intro h; simp at h
    split
    · intro h; simp at h
    split
    · intro h; simp at h
    · intro h; simp at h

theorem mainTrace_render_ge2 (o : Opts) : ∀ (exps : List Experiment)
    (script : List (List RoundInput)) (entry : List Experiment × StepResult),
    entry ∈ mainTrace o exps script → invokesRender entry.2 = true →
    ∀ e ∈ entry.1, 2 ≤ e.runs
  | exps, [], entry, hmem, _ => by simp [mainTrace] at hmem
  | exps, r :: rs, entry, hmem, hinv => by
    simp only [mainTrace] at hmem
    rcases List.mem_cons.mp hmem with rfl | htail
    · intro e he
      exact Nat.le_trans (mainStep_render_min o exps r hinv) (minCount_le _ e he)
    · by_cases hstop : stopsLoop (mainStep o exps r).2 = true
      · rw [if_pos hstop] at htail
        simp at htail
      · rw [if_neg hstop] at htail
        exact mainTrace_render_ge2 o (mainStep o exps r).1 rs entry htail hinv

theorem mainStep_mono (o : Opts) (exps : List Experiment) (r : List RoundInput) :
    storesMono exps (mainStep o exps r).1 := by
  rw [mainStep_fst]
  exact run_pair_mono o.metricGiven exps r

theorem mainTrace_chain (o : Opts) : ∀ (exps : List Experiment)
    (script : List (List RoundInput)),
    List.Chain' storesMono (exps :: (mainTrace o exps script).map (fun st => st.1))
  | exps, [] => by simp [mainTrace]
  | exps, r :: rs => by
    simp only [mainTrace, List.map_cons]
    by_cases hstop : stopsLoop (mainStep o exps r).2 = true
    · rw [if_pos hstop]
      simp only [List.map_nil]
      exact List.chain'_pair.mpr (mainStep_mono o exps r)
    · rw [if_neg hstop]
      rw [List.chain'_cons]
      exact ⟨mainStep_mono o exps r, mainTrace_chain o (mainStep o exps r).1 rs⟩

theorem clearAllExps_empty (es : List Experiment) :
    ∀ e ∈ clearAllExps es, ∀ k, e.measures.get k = [] := by
  intro e he k
  rcases List.mem_map.mp he with ⟨x, _, rfl⟩
  cases k <;> rfl

theorem mainTrace_udm (o : Opts) (hmg : o.metricGiven = false) :
    ∀ (exps : List Experiment) (script : List (List RoundInput)),
    allUdmEmpty exps → ∀ entry ∈ mainTrace o exps script, allUdmEmpty entry.1
  | exps, [], _, entry, hmem => by simp [mainTrace] at hmem
  | exps, r :: rs, hud, entry, hmem => by
    have hstep : allUdmEmpty (mainStep o exps r).1 := by
      rw [mainStep_fst, hmg]
      exact run_pair_udm exps r hud
    simp only [mainTrace] at hmem
    rcases List.mem_cons.mp hmem with rfl | htail
    · exact hstep
    · by_cases hstop : stopsLoop (mainStep o exps r).2 = true
      · rw [if_pos hstop] at htail
        simp at htail
      · rw [if_neg hstop] at htail
        exact mainTrace_udm o hmg (mainStep o exps r).1 rs hstep entry htail

theorem unlines_append (a b : List String) :
    unlines (a ++ b) = unlines a ++ unlines b := by
  induction a with
  | nil => rw [List.nil_append, unlines, String.empty_append]
  | cons l ls ih =>
    show l ++ "\n" ++ unlines (ls ++ b) = l ++ "\n" ++ unlines ls ++ unlines b
    rw [ih, ← String.append_assoc]

theorem renderOne_ok (k : MeasureKey) (tests : List Experiment) (include_distr : Bool)
    (h : ∀ t ∈ tests, 2 ≤ (t.measures.get k).length) :
    renderOne k tests include_distr = .ok (unlines (blockLines k tests include_distr)) := by
  unfold renderOne statsLines blockLines
  rw [if_pos h]

theorem renderOne_full_short (k : MeasureKey) (tests : List Experiment) :
    renderOne k tests true =
      (renderOne k tests false).map (fun s => s ++ unlines (plotLines k tests)) := by
  unfold renderOne
  cases h : statsLines k tests with
  | error e => rfl
  | ok rows =>
    simp only [Except.map, if_true, Bool.false_eq_true, if_false, List.append_nil]
    exact congrArg Except.ok (unlines_append (Measure.name k :: rows) (plotLines k tests))

theorem allRenderGo_tail (tests : List Experiment) (include_distr : Bool) :
    ∀ (ms : List MeasureKey),
    (∀ m ∈ ms, ∀ t ∈ tests, 2 ≤ (t.measures.get m).length) →
    ∀ (s : String) (i : Nat), i ≠ 0 →
    allRenderGo tests include_distr ms i s = .ok (s ++ blocksTail tests include_distr ms)
  | [], _, s, i, _ => by
    simp only [allRenderGo, blocksTail, String.append_empty]
  | m :: ms, h, s, i, hi => by
    have hm : ∀ t ∈ tests, 2 ≤ (t.measures.get m).length :=
      h m (List.mem_cons_self m ms)
    have hms : ∀ m' ∈ ms, ∀ t ∈ tests, 2 ≤ (t.measures.get m').length :=
      fun m' hm' => h m' (List.mem_cons_of_mem m hm')
    simp only [allRenderGo, if_pos hi, renderOne_ok m tests include_distr hm]
    rw [allRenderGo_tail tests include_distr ms hms _ (i + 1) (Nat.succ_ne_zero i)]
    simp only [blocksTail, String.append_assoc]

theorem sepBlank_blocks (tests : List Experiment) (include_distr : Bool) :
    ∀ (ms : List MeasureKey),
    unlines (sepBlank (ms.map fun m => blockLines m tests include_distr)) =
      (match ms with
       | [] => ""
       | m :: rest => unlines (blockLines m tests include_distr) ++ blocksTail tests include_distr rest)
  | [] => rfl
  | [m] => by
    simp only [List.map_cons, List.map_nil, sepBlank, blocksTail, String.append_empty]
  | m :: m2 :: rest => by
    have ih := sepBlank_blocks tests include_distr (m2 :: rest)
    simp only [List.map_cons, sepBlank]
    rw [unlines_append, unlines_append]
    simp only [List.map_cons] at ih
    rw [ih]
    simp only [blocksTail, unlines, String.empty_append, String.append_assoc]

theorem render_stats_blocks (ms : List MeasureKey) (tests : List Experiment)
    (include_distr : Bool)
    (h : ∀ m ∈ ms, ∀ t ∈ tests, 2 ≤ (t.measures.get m).length) :
    AllMeasures.render_stats ms tests include_distr =
      .ok (unlines (sepBlank (ms.map fun m => blockLines m tests include_distr))) := by
  cases ms with
  | nil => rfl
  | cons m rest =>
    have hm : ∀ t ∈ tests, 2 ≤ (t.measures.get m).length :=
      h m (List.mem_cons_self m rest)
    have hrest : ∀ m' ∈ rest, ∀ t ∈ tests, 2 ≤ (t.measures.get m').length :=
      fun m' hm' => h m' (List.mem_cons_of_mem m hm')
    unfold AllMeasures.render_stats
    simp only [allRenderGo, if_neg (by simp : ¬ (0 : Nat) ≠ 0),
      renderOne_ok m tests include_distr hm]
    rw [allRenderGo_tail tests include_distr rest hrest _ 1 Nat.one_ne_zero]
    rw [String.empty_append, sepBlank_blocks]

theorem MeasureKey.mem_ALL (k : MeasureKey) : k ∈ MeasureKey.ALL := by
  cases k <;> decide

theorem mainStep_err (o : Opts) (exps : List Experiment) (r : List RoundInput) (err : RunErr)
    (h : (run_pair o.metricGiven exps r).1 = some err) :
    (mainStep o exps r).2 = StepResult.errored err := by
  simp only [mainStep, h]

theorem mainStep_continued_lt (o : Opts) (exps : List Experiment) (r : List RoundInput)
    (h : (mainStep o exps r).2 = StepResult.continued) :
    minCount (mainStep o exps r).1 < 2 := by
  revert h
  unfold mainStep
  rcases run_pair o.metricGiven exps r with ⟨err?, exps'⟩
  cases err? with
  | some e => intro h; simp at h
  | none =>
    simp only
    split
    · intro h; simp at h
    split
    · intro _
      assumption
    · rename_i hlt
      split
      · intro h; simp at h
      · split
        · intro h; simp at h
        · intro h; simp at h

theorem mainTrace_broke (o : Opts) : ∀ (exps : List Experiment)
    (script : List (List RoundInput)) (entry : List Experiment × StepResult),
    entry ∈ mainTrace o exps script → entry.2 = StepResult.broke →
    o.iterations = some (minCount entry.1)
  | exps, [], entry, hmem, _ => by simp [mainTrace] at hmem
  | exps, r :: rs, entry, hmem, hb => by
    simp only [mainTrace] at hmem
    rcases List.mem_cons.mp hmem with rfl | htail
    · exact mainStep_broke_iter o exps r hb
    · by_cases hstop : stopsLoop (mainStep o exps r).2 = true
      · rw [if_pos hstop] at htail
        simp at htail
      · rw [if_neg hstop] at htail
        exact mainTrace_broke o (mainStep o exps r).1 rs entry htail hb

theorem mainTrace_continued (o : Opts) : ∀ (exps : List Experiment)
    (script : List (List RoundInput)) (entry : List Experiment × StepResult),
    entry ∈ mainTrace o exps script → entry.2 = StepResult.continued →
    minCount entry.1 < 2
  | exps, [], entry, hmem, _ => by simp [mainTrace] at hmem
  | exps, r :: rs, entry, hmem, hc => by
    simp only [mainTrace] at hmem
    rcases List.mem_cons.mp hmem with rfl | htail
    · exact mainStep_continued_lt o exps r hc
    · by_cases hstop : stopsLoop (mainStep o exps r).2 = true
      · rw [if_pos hstop] at htail
        simp at htail
      · rw [if_neg hstop] at htail
        exact mainTrace_continued o (mainStep o exps r).1 rs entry htail hc

theorem stateTrace_udm (o : Opts) (hmg : o.metricGiven = false) (exps : List Experiment)
    (script : List (List RoundInput)) (h0 : allUdmEmpty exps) :
    ∀ st ∈ stateTrace o exps script, allUdmEmpty st := by
  intro st hst
  unfold stateTrace at hst
  by_cases hig : o.ignore_first = true
  · rw [if_pos hig] at hst
    cases script with
    | nil =>
      rcases List.mem_singleton.mp hst with rfl
      exact h0
    | cons r rest =>
      have hpr : allUdmEmpty (run_pair o.metricGiven exps r).2 := by
        rw [hmg]
        exact run_pair_udm exps r h0
      simp only at hst
      rcases hp : (run_pair o.metricGiven exps r).1 with _ | err
      · rw [hp] at hst
        simp only at hst
        have hclear : allUdmEmpty (clearAllExps (run_pair o.metricGiven exps r).2) := by
          intro e he
          exact clearAllExps_empty _ e he MeasureKey.UserDefinedMetric
        rcases List.mem_cons.mp hst with rfl | hst1
        · exact h0
        rcases List.mem_cons.mp hst1 with rfl | hst2
        · exact hpr
        rcases List.mem_cons.mp hst2 with rfl | hst3
        · exact hclear
        · rcases List.mem_map.mp hst3 with ⟨entry, hentry, rfl⟩
          exact mainTrace_udm o hmg _ rest hclear entry hentry
      · rw [hp] at hst
        simp only at hst
        rcases List.mem_cons.mp hst with rfl | hst1
        · exact h0
        rcases List.mem_singleton.mp hst1 with rfl
        exact hpr
  · rw [if_neg hig] at hst
    rcases List.mem_cons.mp hst with rfl | hst1
    · exact h0
    · rcases List.mem_map.mp hst1 with ⟨entry, hentry, rfl⟩
      exact mainTrace_udm o hmg exps script h0 entry hentry

/-- C2: for every run of an experiment whose reported peak RSS is zero,
`run_test` surfaces the maxrss-unavailable error and appends no sample
to any of that experiment's stores for that round — the experiment is
returned entirely unchanged, so neither a wall-time nor a max-RSS value
is pushed. -/
theorem C2_rss_unavailable (mg : Bool) (t : Experiment) (i : RoundInput)
    (hw : i.warmupSuccess = true) (hr : i.runSuccess = true) (h : i.maxrss = 0) :
    run_test mg t i = (some RunErr.maxrssUnavailable, t) :=
  run_test_rss_zero mg t i hw hr h

/-- Witness for C2 at a concrete experiment and round input. -/
theorem C2_rss_unavailable_witness :
    run_test true ⟨ExperimentName.A, "", "w", ⟨[], [], []⟩⟩ ⟨true, true, 7, 0, true, "1"⟩ =
      (some RunErr.maxrssUnavailable, ⟨ExperimentName.A, "", "w", ⟨[], [], []⟩⟩) :=
  C2_rss_unavailable true ⟨ExperimentName.A, "", "w", ⟨[], [], []⟩⟩
    ⟨true, true, 7, 0, true, "1"⟩ rfl rfl rfl

/-- C5: when an experiment's warmup script or measured script exits
non-zero, `run_test` appends nothing to any of that experiment's stores
and returns success, and `run_pair` continues with the next
experiment exactly as it would from the unchanged state. -/
theorem C5_child_failure_skips (mg : Bool) (t : Experiment) (i : RoundInput)
    (h : i.warmupSuccess = false ∨ i.runSuccess = false) :
    run_test mg t i = (none, t) ∧
    ∀ (es : List Experiment) (is : List RoundInput),
      run_pair mg (t :: es) (i :: is) = ((run_pair mg es is).1, t :: (run_pair mg es is).2) := by
  have h1 := run_test_skip mg t i h
  exact ⟨h1, fun es is => run_pair_cons_ok mg t es i is t h1⟩

/-- Witness for C5 at a concrete experiment and a failed warmup. -/
theorem C5_child_failure_skips_witness :
    run_test false ⟨ExperimentName.B, "", "w", ⟨[3], [4], []⟩⟩ ⟨false, true, 7, 9, true, "1"⟩ =
      (none, ⟨ExperimentName.B, "", "w", ⟨[3], [4], []⟩⟩) :=
  (C5_child_failure_skips false ⟨ExperimentName.B, "", "w", ⟨[3], [4], []⟩⟩
    ⟨false, true, 7, 9, true, "1"⟩ (Or.inl rfl)).1

/-- C7: for the same experiment data, the full-mode report is exactly the
short-mode report with the distribution-plot block appended: identical
statistics rows (and identical failure), differing only in the presence
of the plot. -/
theorem C7_full_short_same_stats (k : MeasureKey) (tests : List Experiment) :
    renderOne k tests true =
      (renderOne k tests false).map (fun s => s ++ unlines (plotLines k tests)) :=
  renderOne_full_short k tests

/-- C9: the display transform of each metric: wall time shows
1,500,000,000 nanoseconds as the fixed-point seconds value 1.500, max
RSS shows 2,097,152 bytes as 2 mebibytes by integer division, and the
user-defined metric's transform is the identity; each is a total Lean
function. -/
theorem C9_display_transforms :
    (WallTime.number_to_display 1500000000).display_str = "1.500" ∧
    MaxRss.number_to_display 2097152 = 2 ∧
    ∀ n : Nat, UserDefinedMetric.number_to_display n = n :=
  ⟨by decide, by decide, fun _ => rfl⟩

/-- C10: round-tripping `index` through `from_index` recovers every key
in `ALL`, the three indices are pairwise distinct, `from_index` reaches
its panic branch (modelled as `none`) exactly on indices above 2, and
succeeds on every index at most 2. -/
theorem C10_measure_key_index :
    (∀ k ∈ MeasureKey.ALL, MeasureKey.from_index k.index = some k) ∧
    List.Pairwise (fun a b => MeasureKey.index a ≠ MeasureKey.index b) MeasureKey.ALL ∧
    (∀ n : Nat, 2 < n → MeasureKey.from_index n = none) ∧
    (∀ n : Nat, n ≤ 2 → (MeasureKey.from_index n).isSome = true) := by
  refine ⟨by decide, by decide, ?_, ?_⟩
  · intro n h
    rcases n with _ | (_ | (_ | m))
    · omega
    · omega
    · omega
    · rfl
  · intro n h
    rcases n with _ | (_ | (_ | m))
    · rfl
    · rfl
    · rfl
    · omega

/-- Witness for C10 at concrete indices. -/
theorem C10_measure_key_index_witness :
    MeasureKey.from_index (MeasureKey.index MeasureKey.MaxRss) = some MeasureKey.MaxRss ∧
    MeasureKey.from_index 3 = none :=
  ⟨C10_measure_key_index.1 MeasureKey.MaxRss (by decide),
   C10_measure_key_index.2.2.1 3 (by decide)⟩

/-- C1 (amended): when the metric command exits non-zero or its trimmed
output does not parse as a non-negative integer, no sample is appended
to the UserDefinedMetric store (the round's wall-time and max-RSS
samples are already appended), but `run_test` returns an error — the
assertion panic, or the parse error — which propagates through
`run_pair` and ends the run loop. -/
theorem C1_metric_failure_aborts (t : Experiment) (i : RoundInput)
    (hw : i.warmupSuccess = true) (hr : i.runSuccess = true) (hm : i.maxrss ≠ 0)
    (hf : i.metricExitSuccess = false ∨ parse_u64 (rust_trim i.metricStdout) = none) :
    (run_test true t i).1.isSome = true ∧
    (run_test true t i).2.measures.get MeasureKey.UserDefinedMetric =
      t.measures.get MeasureKey.UserDefinedMetric ∧
    (run_test true t i).2.measures.get MeasureKey.WallTime =
      t.measures.get MeasureKey.WallTime ++ [i.durationNanos] ∧
    ∀ (o : Opts) (es : List Experiment) (is : List RoundInput), o.metricGiven = true →
      stopsLoop (mainStep o (t :: es) (i :: is)).2 = true := by
  have hchar : run_test true t i =
      (some (if i.metricExitSuccess = false then RunErr.metricCommandFailed else RunErr.metricParse),
       { t with measures := (t.measures.push MeasureKey.WallTime i.durationNanos).push MeasureKey.MaxRss i.maxrss }) := by
    unfold run_test
    by_cases hx : i.metricExitSuccess = false
    · simp [hw, hr, hm, hx]
    · rcases hf with hf | hf
      · exact absurd hf hx
      · simp [hw, hr, hm, hx, hf]
  refine ⟨by rw [hchar]; rfl, ?_, ?_, ?_⟩
  · rw [hchar]
    simp [MeasureMap.get, MeasureMap.push]
  · rw [hchar]
    simp [MeasureMap.get, MeasureMap.push]
  · intro o es is hmg
    have hrp : (run_pair o.metricGiven (t :: es) (i :: is)).1 =
        some (if i.metricExitSuccess = false then RunErr.metricCommandFailed
          else RunErr.metricParse) := by
      rw [hmg, run_pair_cons_err true t es i is _ _ hchar]
    rw [mainStep_err o (t :: es) (i :: is) _ hrp]
    rfl

/-- C1 counterexample: with a metric command whose output "abc" does not
parse, the first loop iteration ends with a propagated error and the
trace stops after round one — the second scripted round never runs —
refuting that the run loop continues; in the final state the
UserDefinedMetric store received no sample while wall-time and max-RSS
were already appended. -/
theorem C1_metric_failure_counterexample :
    mainTrace ⟨false, false, none, false, true⟩ [⟨ExperimentName.A, "", "r", ⟨[], [], []⟩⟩]
        [[⟨true, true, 7, 500, true, "abc"⟩], [⟨true, true, 7, 500, true, "1"⟩]] =
      [([⟨ExperimentName.A, "", "r", ⟨[7], [500], []⟩⟩], StepResult.errored RunErr.metricParse)] := by
  decide

/-- Witness for C1's amended theorem at a concrete unparsable output. -/
theorem C1_metric_failure_witness :
    (run_test true ⟨ExperimentName.C, "", "r", ⟨[], [], []⟩⟩
      ⟨true, true, 7, 500, true, "zzz"⟩).1.isSome = true :=
  (C1_metric_failure_aborts ⟨ExperimentName.C, "", "r", ⟨[], [], []⟩⟩
    ⟨true, true, 7, 500, true, "zzz"⟩ rfl rfl (by decide) (Or.inr (by decide))).1

/-- C3 (amended): the UserDefinedMetric store of every experiment stays
empty in every state of a run in which no metric command was given; but
the MaxRss store does not stay empty when memory measurement is not
requested — every fully successful `run_test` appends the peak-RSS
sample regardless of any option (the mem flag only selects what is
rendered). -/
theorem C3_inactive_stores (o : Opts) (exps : List Experiment)
    (script : List (List RoundInput)) (hmg : o.metricGiven = false)
    (h0 : allUdmEmpty exps) :
    (∀ st ∈ stateTrace o exps script, allUdmEmpty st) ∧
    ∀ (mg : Bool) (t : Experiment) (i : RoundInput), i.warmupSuccess = true →
      i.runSuccess = true → i.maxrss ≠ 0 →
      (run_test mg t i).2.measures.get MeasureKey.MaxRss =
        t.measures.get MeasureKey.MaxRss ++ [i.maxrss] :=
  ⟨stateTrace_udm o hmg exps script h0,
   fun mg t i hw hr hm => run_test_rss_append mg t i hw hr hm⟩

/-- C3 counterexample: a run with memory measurement not requested
(mem = false) in which the MaxRss store of experiment A nevertheless
ends up non-empty after one successful round, refuting that inactive
kinds' stores stay empty. -/
theorem C3_inactive_stores_counterexample :
    (⟨false, false, some 1, false, false⟩ : Opts).mem = false ∧
    (stateTrace ⟨false, false, some 1, false, false⟩
        [⟨ExperimentName.A, "", "r", ⟨[], [], []⟩⟩] [[⟨true, true, 7, 500, true, "1"⟩]]).map
        (List.map fun e => e.measures.get MeasureKey.MaxRss) =
      [[[]], [[500]]] :=
  ⟨rfl, by decide⟩

/-- Witness for C3's amended theorem: the user-defined store is still
empty in the state reached after one successful round without a metric
command. -/
theorem C3_inactive_stores_witness :
    allUdmEmpty [⟨ExperimentName.A, "", "r", ⟨[7], [500], []⟩⟩] :=
  (C3_inactive_stores ⟨false, false, none, false, false⟩
      [⟨ExperimentName.A, "", "r", ⟨[], [], []⟩⟩] [[⟨true, true, 7, 500, true, "1"⟩]]
      rfl (by intro e he; rcases List.mem_singleton.mp he with rfl; rfl)).1
    [⟨ExperimentName.A, "", "r", ⟨[7], [500], []⟩⟩] (by decide)

/-- C4: in every reachable loop state, report rendering is invoked only
when every experiment holds at least two samples; a loop iteration
breaks exactly when the requested iteration count equals the minimum
sample count; the continue gate fires exactly below a minimum of two;
and the authoritative completed-round count over sample counts
5, 5 and 3 is 3. -/
theorem C4_render_gating :
    (∀ (o : Opts) (exps : List Experiment) (script : List (List RoundInput)),
      ∀ entry ∈ mainTrace o exps script, invokesRender entry.2 = true →
        ∀ e ∈ entry.1, 2 ≤ e.runs) ∧
    (∀ (o : Opts) (exps : List Experiment) (script : List (List RoundInput)),
      ∀ entry ∈ mainTrace o exps script, entry.2 = StepResult.broke →
        o.iterations = some (minCount entry.1)) ∧
    (∀ (o : Opts) (exps : List Experiment) (script : List (List RoundInput)),
      ∀ entry ∈ mainTrace o exps script, entry.2 = StepResult.continued →
        minCount entry.1 < 2) ∧
    minCount [⟨ExperimentName.A, "", "a", ⟨[1, 1, 1, 1, 1], [], []⟩⟩,
      ⟨ExperimentName.B, "", "b", ⟨[1, 1, 1, 1, 1], [], []⟩⟩,
      ⟨ExperimentName.C, "", "c", ⟨[1, 1, 1], [], []⟩⟩] = 3 := by
  refine ⟨?_, ?_, ?_, by decide⟩
  · intro o exps script entry hmem hinv
    exact mainTrace_render_ge2 o exps script entry hmem hinv
  · intro o exps script entry hmem hb
    exact mainTrace_broke o exps script entry hmem hb
  · intro o exps script entry hmem hc
    exact mainTrace_continued o exps script entry hmem hc

/-- Witness for C4: a concrete two-round run whose second iteration
renders, in a state whose only experiment has two samples. -/
theorem C4_render_gating_witness :
    2 ≤ Experiment.runs ⟨ExperimentName.A, "", "x", ⟨[5, 5], [9, 9], []⟩⟩ :=
  C4_render_gating.1 ⟨false, false, none, false, false⟩
    [⟨ExperimentName.A, "", "x", ⟨[], [], []⟩⟩]
    [[⟨true, true, 5, 9, true, "1"⟩], [⟨true, true, 5, 9, true, "1"⟩]]
    ((mainTrace ⟨false, false, none, false, false⟩
        [⟨ExperimentName.A, "", "x", ⟨[], [], []⟩⟩]
        [[⟨true, true, 5, 9, true, "1"⟩], [⟨true, true, 5, 9, true, "1"⟩]]).getD 1
      ([], StepResult.broke))
    (by decide) (by decide)
    ⟨ExperimentName.A, "", "x", ⟨[5, 5], [9, 9], []⟩⟩ (by decide)

/-- C6: without ignore-first, store lengths are monotone along the whole
state trace; with ignore-first and a successful first round, the trace
is the initial state, the state after exactly one round, the state with
every store cleared, and then the loop states — the pre-round step and
every loop step are monotone, so the single clear is the only point
where a store length decreases. -/
theorem C6_ignore_first_clear (o : Opts) (exps : List Experiment)
    (script : List (List RoundInput)) :
    (o.ignore_first = false → List.Chain' storesMono (stateTrace o exps script)) ∧
    (o.ignore_first = true → ∀ (r : List RoundInput) (rest : List (List RoundInput)),
      script = r :: rest → (run_pair o.metricGiven exps r).1 = none →
      stateTrace o exps script =
        exps :: (run_pair o.metricGiven exps r).2 ::
          clearAllExps (run_pair o.metricGiven exps r).2 ::
          (mainTrace o (clearAllExps (run_pair o.metricGiven exps r).2) rest).map
            (fun st => st.1) ∧
      (∀ e ∈ clearAllExps (run_pair o.metricGiven exps r).2, ∀ k, e.measures.get k = []) ∧
      storesMono exps (run_pair o.metricGiven exps r).2 ∧
      List.Chain' storesMono
        (clearAllExps (run_pair o.metricGiven exps r).2 ::
          (mainTrace o (clearAllExps (run_pair o.metricGiven exps r).2) rest).map
            (fun st => st.1))) := by
  constructor
  · intro hig
    unfold stateTrace
    rw [if_neg (by simp [hig])]
    exact mainTrace_chain o exps script
  · intro hig r rest hscript hp
    subst hscript
    refine ⟨?_, fun e he k => clearAllExps_empty _ e he k,
      run_pair_mono o.metricGiven exps r, mainTrace_chain o _ rest⟩
    unfold stateTrace
    rw [if_pos hig]
    simp only [hp]

/-- Witness for C6 at a concrete one-round ignore-first run. -/
theorem C6_ignore_first_clear_witness :
    storesMono [⟨ExperimentName.A, "", "x", ⟨[], [], []⟩⟩]
      (run_pair (⟨false, true, none, false, false⟩ : Opts).metricGiven
        [⟨ExperimentName.A, "", "x", ⟨[], [], []⟩⟩] [⟨true, true, 5, 9, true, "1"⟩]).2 :=
  ((C6_ignore_first_clear ⟨false, true, none, false, false⟩
      [⟨ExperimentName.A, "", "x", ⟨[], [], []⟩⟩] [[⟨true, true, 5, 9, true, "1"⟩]]).2 rfl
    [⟨true, true, 5, 9, true, "1"⟩] [] rfl (by decide)).2.2.1

/-- C8: the active-measure registry is wall time, then max RSS when
memory measurement is enabled, then the user metric when enabled; and
when every block renders, the aggregated report is the concatenation of
the newline-terminated blocks in that order with one blank line between
consecutive blocks. -/
theorem C8_aggregated_report (mem mg include_distr : Bool) (tests : List Experiment)
    (h : ∀ m ∈ MeasureKey.ALL, ∀ t ∈ tests, 2 ≤ (t.measures.get m).length) :
    buildMeasures mem mg =
      [MeasureKey.WallTime] ++ (if mem then [MeasureKey.MaxRss] else []) ++
        (if mg then [MeasureKey.UserDefinedMetric] else []) ∧
    AllMeasures.render_stats (buildMeasures mem mg) tests include_distr =
      .ok (unlines (sepBlank ((buildMeasures mem mg).map
        fun m => blockLines m tests include_distr))) := by
  constructor
  · cases mem <;> cases mg <;> rfl
  · exact render_stats_blocks _ tests include_distr
      (fun m _ t ht => h m (MeasureKey.mem_ALL m) t ht)

/-- Witness for C8 at one experiment with two samples per store and all
three measures active. -/
theorem C8_aggregated_report_witness :
    AllMeasures.render_stats (buildMeasures true true)
        [⟨ExperimentName.A, "", "x", ⟨[1, 2], [3, 4], [5, 6]⟩⟩] true =
      .ok (unlines (sepBlank ((buildMeasures true true).map fun m =>
        blockLines m [⟨ExperimentName.A, "", "x", ⟨[1, 2], [3, 4], [5, 6]⟩⟩] true))) :=
  (C8_aggregated_report true true true
    [⟨ExperimentName.A, "", "x", ⟨[1, 2], [3, 4], [5, 6]⟩⟩] (by decide)).2
